import Mathlib

/-!
Verification of the hhr alignment parser (Bio/Align/hhr.py).

A shallow embedding of the hhr-format parser: the header parser
(`_read_header`) and the alignment block parser (`_read_next_alignment`),
together with the iterator driver.  Python strings become Lean `String`s
(manipulated through structural, kernel-computable helpers over `List Char`),
Python `int` becomes `Int`, Python `float` becomes `ℚ` (the file format only
ever contains decimal literals), Python exceptions become an explicit error
type `Err` via `Except`, and the stream of input lines becomes `List String`.
-/

namespace HHR

/-! ## String primitives mirroring the Python string operations

All helpers recurse structurally over `List Char` so that every definition
reduces inside the kernel (`decide`/`rfl` work on concrete inputs).
-/

/-- Whitespace test used by Python `str.split()` / `str.strip()` (ASCII cases). -/
def wsChar (c : Char) : Bool :=
  c == ' ' || c == '\t' || c == '\n' || c == '\r'

/-- Python `s.rstrip()`. -/
def pyRstrip (s : String) : String :=
  ⟨(s.data.reverse.dropWhile wsChar).reverse⟩

/-- Python `s.strip()`. -/
def pyStrip (s : String) : String :=
  ⟨((s.data.dropWhile wsChar).reverse.dropWhile wsChar).reverse⟩

/-- Python `s.startswith(p)`. -/
def startsW (s p : String) : Bool :=
  p.data.isPrefixOf s.data

/-- Python `s.endswith(p)`. -/
def endsW (s p : String) : Bool :=
  p.data.reverse.isPrefixOf s.data.reverse

/-- Python `s.rstrip("%")`: drop all trailing percent signs. -/
def rstripPercent (s : String) : String :=
  ⟨(s.data.reverse.dropWhile (fun c => c == '%')).reverse⟩

/-- Python `s[n:]`. -/
def strDrop (s : String) (n : Nat) : String := ⟨s.data.drop n⟩

/-- Python `s[:n]`. -/
def strTake (s : String) (n : Nat) : String := ⟨s.data.take n⟩

/-- Python `s[1:-1]` (used for the `(total)` fields). -/
def innerParen (s : String) : String := ⟨(s.data.drop 1).dropLast⟩

/-- Python `s.replace(c, "")`: remove every occurrence of the character. -/
def stripChar (s : String) (c : Char) : String :=
  ⟨s.data.filter (fun x => x != c)⟩

/-- Helper for `pySplitWS`: split on whitespace runs, accumulator holds the
current (reversed) token. -/
def splitWSAux : List Char → List Char → List String
  | [], [] => []
  | [], cur => [⟨cur.reverse⟩]
  | c :: cs, cur =>
    if wsChar c then
      if cur.isEmpty then splitWSAux cs [] else ⟨cur.reverse⟩ :: splitWSAux cs []
    else splitWSAux cs (c :: cur)

/-- Python `s.split()` (split on whitespace, dropping empty fields). -/
def pySplitWS (s : String) : List String := splitWSAux s.data []

/-- Python `a, b = s.split(None, 1)`: first whitespace-delimited token and the
remainder with its leading whitespace removed; `none` when there are fewer
than two parts (Python raises a tuple-unpacking `ValueError` there). -/
def splitNone1 (s : String) : Option (String × String) :=
  let l := s.data.dropWhile wsChar
  let tok := l.takeWhile (fun c => !wsChar c)
  let rest := (l.dropWhile (fun c => !wsChar c)).dropWhile wsChar
  if tok.isEmpty || rest.isEmpty then none else some (⟨tok⟩, ⟨rest⟩)

/-- Python `a, b = s.rsplit(None, 1)`: split off the last whitespace-delimited
token; `none` when there are fewer than two parts. -/
def rsplitNone1 (s : String) : Option (String × String) :=
  let l := s.data.reverse.dropWhile wsChar
  let tokR := l.takeWhile (fun c => !wsChar c)
  let restR := (l.dropWhile (fun c => !wsChar c)).dropWhile wsChar
  if tokR.isEmpty || restR.isEmpty then none
  else some (⟨restR.reverse⟩, ⟨tokR.reverse⟩)

/-- Python `a, b = s.split()` requiring exactly two fields. -/
def splitExact2 (s : String) : Option (String × String) :=
  match pySplitWS s with
  | [a, b] => some (a, b)
  | _ => none

/-- Python six-way unpacking `a, b, c, d, e, f = s.split()`. -/
def splitExact6 (s : String) :
    Option (String × String × String × String × String × String) :=
  match pySplitWS s with
  | [a, b, c, d, e, f] => some (a, b, c, d, e, f)
  | _ => none

/-- Helper for `splitOnEqS`: split at every `=`. -/
def splitEqAux : List Char → List Char → List String
  | [], cur => [⟨cur.reverse⟩]
  | c :: cs, cur =>
    if c == '=' then ⟨cur.reverse⟩ :: splitEqAux cs [] else splitEqAux cs (c :: cur)

/-- Python `s.split("=")`. -/
def splitOnEqS (s : String) : List String := splitEqAux s.data []

/-- The separator of the `No_of_seqs` header value. -/
def outOfSep : List Char := " out of ".data

/-- First occurrence of `" out of "` in a character list: the part before and
the part after. -/
def findOutOf : List Char → Option (List Char × List Char)
  | [] => none
  | c :: cs =>
    if outOfSep.isPrefixOf (c :: cs) then some ([], (c :: cs).drop outOfSep.length)
    else
      match findOutOf cs with
      | some (pre, post) => some (c :: pre, post)
      | none => none

/-- Whether `" out of "` occurs in the character list. -/
def containsOutOf : List Char → Bool
  | [] => false
  | c :: cs => outOfSep.isPrefixOf (c :: cs) || containsOutOf cs

/-- Python `a, b = s.split(" out of ")` requiring exactly two parts. -/
def splitOutOf (s : String) : Option (String × String) :=
  match findOutOf s.data with
  | none => none
  | some (pre, post) =>
    if containsOutOf post then none else some (⟨pre⟩, ⟨post⟩)

/-! ## Numeric literal parsing (Python `int(...)` and `float(...)`)

`int` is modelled for optionally signed decimal digit strings with
surrounding whitespace; `float` for optionally signed decimal literals with
an optional fraction and exponent.  (Python's underscore digit separators and
the `inf`/`nan` spellings never occur in hhr files and are not modelled.)
-/

def isDigitC (c : Char) : Bool := '0' ≤ c && c ≤ '9'

def digitsToNatAux : List Char → Nat → Option Nat
  | [], acc => some acc
  | c :: cs, acc =>
    if isDigitC c then digitsToNatAux cs (acc * 10 + (c.toNat - 48)) else none

/-- Strip whitespace from both ends of a character list. -/
def stripList (l : List Char) : List Char :=
  ((l.dropWhile wsChar).reverse.dropWhile wsChar).reverse

/-- Python `int(s)`: `none` models the `ValueError`. -/
def pyInt (s : String) : Option Int :=
  match stripList s.data with
  | [] => none
  | '+' :: ds =>
    if ds.isEmpty then none else (digitsToNatAux ds 0).map Int.ofNat
  | '-' :: ds =>
    if ds.isEmpty then none else (digitsToNatAux ds 0).map (fun n => -(n : Int))
  | ds => (digitsToNatAux ds 0).map Int.ofNat

/-- Value of a digit list (used only on lists already known to be digits). -/
def natOfDigits (l : List Char) : Nat :=
  l.foldl (fun acc c => acc * 10 + (c.toNat - 48)) 0

/-- Python `float(s)`, exactly representing the decimal literal as a rational;
`none` models the `ValueError`. -/
def pyFloat (s : String) : Option ℚ :=
  let l0 := stripList s.data
  let signRest : Int × List Char :=
    match l0 with
    | '+' :: r => (1, r)
    | '-' :: r => (-1, r)
    | r => (1, r)
  let sign := signRest.1
  let l1 := signRest.2
  let intd := l1.takeWhile isDigitC
  let l2 := l1.dropWhile isDigitC
  let fracRest : List Char × List Char :=
    match l2 with
    | '.' :: r => (r.takeWhile isDigitC, r.dropWhile isDigitC)
    | r => ([], r)
  let fracd := fracRest.1
  let l3 := fracRest.2
  if intd.isEmpty && fracd.isEmpty then none
  else
    let mantNum : Int := sign * (natOfDigits intd * 10 ^ fracd.length + natOfDigits fracd)
    let mantDen : Nat := 10 ^ fracd.length
    match l3 with
    | [] => some (mkRat mantNum mantDen)
    | e :: r =>
      if e == 'e' || e == 'E' then
        let esignRest : Bool × List Char :=
          match r with
          | '+' :: r2 => (false, r2)
          | '-' :: r2 => (true, r2)
          | r2 => (false, r2)
        let ed := esignRest.2
        if ed.isEmpty || !(ed.all isDigitC) then none
        else if esignRest.1 then some (mkRat mantNum (mantDen * 10 ^ natOfDigits ed))
        else some (mkRat (mantNum * 10 ^ natOfDigits ed) mantDen)
      else none

/-! ## Errors

Each Python exception site gets its own constructor so that the distinctness
of error conditions is visible in the model.  `unpackFail` is the
`ValueError` raised by tuple unpacking (`a, b = ...` with the wrong number of
parts), `intFail`/`floatFail` the `ValueError` from `int()`/`float()`,
`assertFail` an `AssertionError`, `keyError`/`attrError`/`nameError`/
`typeError` the corresponding Python runtime errors, `stopIteration` a bare
`next()` hitting the end of the stream, and the remaining constructors the
explicitly raised `ValueError`s of the parser.  `driverFuel` is an artifact
of the explicit fuel given to the (spec-modelled) driver; it is never
produced when the driver is run with its standard fuel. -/
inductive Err where
  | unknownKey (k : String)
  | truncated
  | assertFail
  | unpackFail
  | intFail
  | floatFail
  | keyError
  | attrError
  | nameError
  | typeError
  | stopIteration
  | doneExtra
  | countMismatch (expected found : Nat)
  | parseFail (snippet : String)
  | driverFuel
deriving DecidableEq

deriving instance DecidableEq for Except

/-! ## Header parser (`AlignmentIterator._read_header`) -/

/-- A typed header metadata value (`self.metadata` holds ints, an int pair,
floats and strings). -/
inductive MetaVal where
  | mInt (n : Int)
  | mPair (a b : Int)
  | mFloat (q : ℚ)
  | mStr (s : String)
deriving DecidableEq

/-- Python dict assignment `d[k] = v`: overwrite in place, else append. -/
def dictSet (d : List (String × α)) (k : String) (v : α) : List (String × α) :=
  if d.any (fun p => p.1 == k) then
    d.map (fun p => if p.1 == k then (k, v) else p)
  else d ++ [(k, v)]

/-- Python dict lookup `d[k]`; `none` models the `KeyError`. -/
def dictGet (d : List (String × α)) (k : String) : Option α :=
  match d.find? (fun p => p.1 == k) with
  | some p => some p.2
  | none => none

/-- The parser state produced by `_read_header` that persists for the whole
file: `self.query_name` (absent when no `Query` line occurred),
`self.metadata`, and `self._number` (the hit-summary row count).  The running
counter `self._counter` is threaded separately. -/
structure Env where
  queryName : Option String := none
  metadata : List (String × MetaVal) := []
  number : Nat := 0
deriving DecidableEq

/-- The metadata loop of `_read_header` (lines before the first blank line).
Returns the query name, the metadata dict, and the unconsumed stream. -/
def readMetaLines :
    List String → Option String → List (String × MetaVal) →
    Except Err (Option String × List (String × MetaVal) × List String)
  | [], qn, md => .ok (qn, md, [])
  | line :: rest, qn, md =>
    let l := pyStrip line
    if l = "" then .ok (qn, md, rest)
    else
      match splitNone1 l with
      | none => .error .unpackFail
      | some (key, value) =>
        if key = "Query" then readMetaLines rest (some value) md
        else if key = "Match_columns" then
          match pyInt value with
          | some n => readMetaLines rest qn (dictSet md key (.mInt n))
          | none => .error .intFail
        else if key = "No_of_seqs" then
          match splitOutOf value with
          | none => .error .unpackFail
          | some (v1, v2) =>
            match pyInt v1, pyInt v2 with
            | some n1, some n2 => readMetaLines rest qn (dictSet md key (.mPair n1 n2))
            | _, _ => .error .intFail
        else if key = "Neff" ∨ key = "Template_Neff" then
          match pyFloat value with
          | some q => readMetaLines rest qn (dictSet md key (.mFloat q))
          | none => .error .floatFail
        else if key = "Searched_HMMs" then
          match pyInt value with
          | some n => readMetaLines rest qn (dictSet md key (.mInt n))
          | none => .error .intFail
        else if key = "Date" then readMetaLines rest qn (dictSet md "Rundate" (.mStr value))
        else if key = "Command" then readMetaLines rest qn (dictSet md "Command line" (.mStr value))
        else .error (.unknownKey key)

/-- The mandatory column-header row of the hit-summary table. -/
def expectedCols : List String :=
  ["No", "Hit", "Prob", "E-value", "P-value", "Score", "SS", "Cols",
   "Query", "HMM", "Template", "HMM"]

/-- The row-counting loop of `_read_header`: each non-blank line must begin
with the next 1-based row number; stops at a blank line or end of stream. -/
def countRows : List String → Nat → Except Err (Nat × List String)
  | [], n => .ok (n, [])
  | line :: rest, n =>
    if pyStrip line = "" then .ok (n, rest)
    else
      match splitNone1 line with
      | none => .error .unpackFail
      | some (word, _) =>
        match pyInt word with
        | none => .error .intFail
        | some k =>
          if k = ((n + 1 : Nat) : Int) then countRows rest (n + 1)
          else .error .assertFail

/-- `_read_header`: metadata block, blank line, column-header row, hit-summary
rows, blank line.  Produces the persistent state and the rest of the stream;
the alignment counter starts at 0. -/
def readHeader (lines : List String) : Except Err (Env × List String) :=
  match readMetaLines lines none [] with
  | .error e => .error e
  | .ok (qn, md, rest) =>
    match rest with
    | [] => .error .truncated
    | line :: rest2 =>
      if pySplitWS line = expectedCols then
        match countRows rest2 0 with
        | .error e => .error e
        | .ok (number, rest3) =>
          .ok ({ queryName := qn, metadata := md, number := number }, rest3)
      else .error .assertFail

/-! ## Alignment records -/

/-- A `SeqRecord` as built by `create_alignment`: an identifier, the ungapped
sequence anchored at `start` within declared length `length`, plus
per-residue annotation strings. -/
structure PySeqRec where
  id : String
  start : Int
  content : String
  length : Int
  annotations : List (String × String)
  letterAnnotations : List (String × String)
deriving DecidableEq

/-- An `Alignment` as built by `create_alignment`: the target and query
records, the offset coordinate mapping, the scalar annotations from the
`>`-block, and the per-column annotations. -/
structure PyAlignment where
  target : PySeqRec
  query : PySeqRec
  coordinates : List (Int × Int)
  annotations : List (String × ℚ)
  columnAnnotations : List (String × String)
deriving DecidableEq

/-- Modelled from the spec: `Alignment.infer_coordinates` (an external
collaborator not part of this repository's sources) takes two equal-length
gapped sequence strings and returns a coordinate mapping identifying the
boundaries of the aligned-vs-gap runs; at each boundary it records the
cumulative ungapped position within each sequence.  Helper walking the two
character lists with the previous gap pattern. -/
def inferGo : List Char → List Char → Nat → Nat → Option (Bool × Bool) →
    List (Nat × Nat)
  | [], _, i, j, _ => [(i, j)]
  | _ :: _, [], i, j, _ => [(i, j)]
  | tc :: ts, qc :: qs, i, j, prev =>
    let pat : Bool × Bool := (tc != '-', qc != '-')
    let i' := if tc != '-' then i + 1 else i
    let j' := if qc != '-' then j + 1 else j
    if prev = some pat then inferGo ts qs i' j' (some pat)
    else (i, j) :: inferGo ts qs i' j' (some pat)

/-- Modelled from the spec: coordinate inference on the gapped target and
query strings (see `inferGo`). -/
def inferCoordinates (t q : String) : List (Nat × Nat) :=
  inferGo t.data q.data 0 0 none

/-- Number of spaces, `' ' * n` (empty for a negative count, as in Python). -/
def spacesN (n : Nat) : String := ⟨List.replicate n ' '⟩

/-- The Python format `f"{' ' * start}%-{width}s" % s`: `start` leading
spaces, then `s` left-justified in `width` columns.  (For a negative width
the extra minus sign merely repeats the left-justify flag, so the effective
width is the absolute value.) -/
def pyFmtPad (start width : Int) (s : String) : String :=
  spacesN start.toNat ++ (s ++ spacesN (width.natAbs - s.length))

/-- The per-call accumulator state of `_read_next_alignment`: the mutable
locals initialised at the top of the call, plus the locals first assigned
inside branches (`hmm_name`, `target_name`, `query_length`, ... — `none`
models "unbound", whose use raises a `NameError`). -/
structure Acc where
  queryStart : Option Int := none
  querySeq : String := ""
  queryConsensus : String := ""
  querySsPred : String := ""
  targetStart : Option Int := none
  targetSeq : String := ""
  targetConsensus : String := ""
  targetSsPred : String := ""
  targetSsDssp : String := ""
  columnScore : String := ""
  confidence : String := ""
  hmmName : Option String := none
  hmmDescription : Option String := none
  alignmentAnnotations : Option (List (String × ℚ)) := none
  targetName : Option String := none
  targetLength : Option Int := none
  queryLength : Option Int := none
deriving DecidableEq

/-- The accumulator at the start of a call. -/
def emptyAcc : Acc := {}

/-- The local function `create_alignment` of `_read_next_alignment`:
requires the accumulated gapped sequences to have equal length (assertion),
yields no alignment when they are empty, and otherwise builds the alignment
record.  (The several distinct unbound-local combinations are collapsed into
single `nameError` / `typeError` results.) -/
def create_alignment (qn : Option String) (a : Acc) : Except Err (Option PyAlignment) :=
  let n := a.targetSeq.length
  if a.querySeq.length ≠ n then .error .assertFail
  else if n = 0 then .ok none
  else
    match a.targetStart, a.queryStart with
    | some tStart, some qStart =>
      match qn with
      | none => .error .attrError
      | some qname =>
        match a.queryLength, a.targetName, a.targetLength,
              a.hmmName, a.hmmDescription, a.alignmentAnnotations with
        | some qLen, some tName, some tLen, some hn, some hd, some annots =>
          let coords := (inferCoordinates a.targetSeq a.querySeq).map
            (fun p => ((p.1 : Int) + tStart, (p.2 : Int) + qStart))
          let query : PySeqRec := {
            id := qname, start := qStart,
            content := stripChar a.querySeq '-', length := qLen,
            annotations := [],
            letterAnnotations :=
              [("Consensus", pyFmtPad qStart (qLen - qStart) (stripChar a.queryConsensus '-')),
               ("ss_pred", pyFmtPad qStart (qLen - qStart) (stripChar a.querySsPred '-'))] }
          let target : PySeqRec := {
            id := tName, start := tStart,
            content := stripChar a.targetSeq '-', length := tLen,
            annotations := [("hmm_name", hn), ("hmm_description", hd)],
            letterAnnotations :=
              [("Consensus", pyFmtPad tStart (tLen - tStart) (stripChar a.targetConsensus '-')),
               ("ss_pred", pyFmtPad tStart (tLen - tStart) (stripChar a.targetSsPred '-')),
               ("ss_dssp", pyFmtPad tStart (tLen - tStart) (stripChar a.targetSsDssp '-')),
               ("Confidence", pyFmtPad tStart (tLen - tStart) (stripChar a.confidence ' '))] }
          .ok (some { target := target, query := query, coordinates := coords,
                      annotations := annots,
                      columnAnnotations := [("column score", a.columnScore)] })
        | _, _, _, _, _, _ => .error .nameError
    | _, _ => .error .typeError

/-! ## The `>`-block annotation line -/

/-- One `key=value` word of the annotation line following a `>` line:
`Aligned_cols` is skipped, the `Identities` value has trailing `%` stripped,
every stored value is converted to float. -/
def parseAnnotWord (anns : List (String × ℚ)) (w : String) :
    Except Err (List (String × ℚ)) :=
  match splitOnEqS w with
  | [k, v] =>
    if k = "Aligned_cols" then .ok anns
    else
      match pyFloat (if k = "Identities" then rstripPercent v else v) with
      | some q => .ok (dictSet anns k q)
      | none => .error .floatFail
  | _ => .error .unpackFail

/-- The whole annotation line: `words = line.split()` processed in order
into the `alignment_annotations` dict. -/
def parseAnnotLine (s : String) : Except Err (List (String × ℚ)) :=
  (pySplitWS s).foldlM parseAnnotWord []

/-! ## Per-line dispatch of `_read_next_alignment` -/

/-- The `Q Consensus ` branch: six fields, start/end/total parsed and
validated, the consensus string appended. -/
def qConsBranch (a : Acc) (l : String) : Except Err (Acc × Bool) :=
  match splitExact6 l with
  | none => .error .unpackFail
  | some (_, _, st, cons, en, tot) =>
    match pyInt st with
    | none => .error .intFail
    | some _ =>
      match pyInt en with
      | none => .error .intFail
      | some _ =>
        if !(startsW tot "(") then .error .assertFail
        else if !(endsW tot ")") then .error .assertFail
        else
          match pyInt (innerParen tot) with
          | none => .error .intFail
          | some _ => .ok ({ a with queryConsensus := a.queryConsensus ++ cons }, false)

/-- The `T Consensus ` branch, analogous to `qConsBranch`. -/
def tConsBranch (a : Acc) (l : String) : Except Err (Acc × Bool) :=
  match splitExact6 l with
  | none => .error .unpackFail
  | some (_, _, st, cons, en, tot) =>
    match pyInt st with
    | none => .error .intFail
    | some _ =>
      match pyInt en with
      | none => .error .intFail
      | some _ =>
        if !(startsW tot "(") then .error .assertFail
        else if !(endsW tot ")") then .error .assertFail
        else
          match pyInt (innerParen tot) with
          | none => .error .intFail
          | some _ => .ok ({ a with targetConsensus := a.targetConsensus ++ cons }, false)

/-- The `Q ` branch: six fields; the second must be a prefix of the query
name, the total must equal the `Match_columns` metadata; the query start is
recorded on first occurrence only and the sequence string appended. -/
def qBranch (env : Env) (a : Acc) (l : String) : Except Err (Acc × Bool) :=
  match splitExact6 l with
  | none => .error .unpackFail
  | some (_, key2, st, seqs, en, tot) =>
    match env.queryName with
    | none => .error .attrError
    | some qname =>
      if !(startsW qname key2) then .error .assertFail
      else
        match pyInt st with
        | none => .error .intFail
        | some si =>
          match pyInt en with
          | none => .error .intFail
          | some _ =>
            if !(startsW tot "(") then .error .assertFail
            else if !(endsW tot ")") then .error .assertFail
            else
              match pyInt (innerParen tot) with
              | none => .error .intFail
              | some ql =>
                match dictGet env.metadata "Match_columns" with
                | none => .error .keyError
                | some mv =>
                  let eq : Bool :=
                    match mv with
                    | .mInt m => m == ql
                    | .mFloat q => q == (ql : ℚ)
                    | _ => false
                  if !eq then .error .assertFail
                  else .ok ({ a with
                      queryStart := some (a.queryStart.getD (si - 1)),
                      querySeq := a.querySeq ++ seqs,
                      queryLength := some ql }, false)

/-- The `T ` branch: six fields; the first must equal `"T"`; the target name
and declared total length are (re)assigned on every such line, the target
start is recorded on first occurrence only, and the sequence string is
appended. -/
def tBranch (a : Acc) (l : String) : Except Err Acc :=
  match splitExact6 l with
  | none => .error .unpackFail
  | some (key, name, st, seqs, en, tot) =>
    if key ≠ "T" then .error .assertFail
    else
      match pyInt st with
      | none => .error .intFail
      | some si =>
        match pyInt en with
        | none => .error .intFail
        | some _ =>
          if !(startsW tot "(") then .error .assertFail
          else if !(endsW tot ")") then .error .assertFail
          else
            match pyInt (innerParen tot) with
            | none => .error .intFail
            | some tl =>
              .ok { a with
                    targetName := some name,
                    targetLength := some tl,
                    targetStart := some (a.targetStart.getD (si - 1)),
                    targetSeq := a.targetSeq ++ seqs }

/-- Result of dispatching one line, before the counter-dependent `No `
handling: either a counter-independent outcome (`simple`: possibly an error,
or the updated accumulator together with a flag telling whether the branch
consumed the following line), or the marker that the `No ` branch applies. -/
inductive Disp where
  | simple (res : Except Err (Acc × Bool))
  | noLine

/-- The body of the `for line in stream` loop of `_read_next_alignment`,
except for the `No ` branch: the branches are tested in source order on the
right-stripped line. -/
def dispatchLine (env : Env) (a : Acc) (line : String) (rest : List String) : Disp :=
  let l := pyRstrip line
  if l = "" then .simple (.ok (a, false))
  else if startsW l ">" then
    .simple (match splitNone1 (strDrop l 1) with
      | none => .error .unpackFail
      | some (hn, hd) =>
        match rest with
        | [] => .error .stopIteration
        | nl :: _ =>
          match parseAnnotLine nl with
          | .error e => .error e
          | .ok annots =>
            .ok ({ a with hmmName := some hn, hmmDescription := some hd,
                          alignmentAnnotations := some annots }, true))
  else if l = "Done!" then
    .simple (match rest with
      | [] => .ok (a, false)
      | _ :: _ => .error .doneExtra)
  else if startsW l " " then
    .simple (.ok ({ a with columnScore := a.columnScore ++ pyStrip l }, false))
  else if startsW l "No " then .noLine
  else if startsW l "Confidence" then
    .simple (match splitNone1 l with
      | none => .error .unpackFail
      | some (_, v) => .ok ({ a with confidence := a.confidence ++ v }, false))
  else if startsW l "Q ss_pred " then
    .simple (match rsplitNone1 l with
      | none => .error .unpackFail
      | some (_, v) => .ok ({ a with querySsPred := a.querySsPred ++ v }, false))
  else if startsW l "Q Consensus " then .simple (qConsBranch a l)
  else if startsW l "Q " then .simple (qBranch env a l)
  else if startsW l "T ss_pred " then
    .simple (match rsplitNone1 l with
      | none => .error .unpackFail
      | some (_, v) => .ok ({ a with targetSsPred := a.targetSsPred ++ v }, false))
  else if startsW l "T ss_dssp " then
    .simple (match rsplitNone1 l with
      | none => .error .unpackFail
      | some (_, v) => .ok ({ a with targetSsDssp := a.targetSsDssp ++ v }, false))
  else if startsW l "T Consensus " then .simple (tConsBranch a l)
  else if startsW l "T " then .simple ((tBranch a l).map (fun a2 => (a2, false)))
  else .simple (.error (.parseFail (strTake l 30)))

/-- Outcome of processing one line inside the loop: continue with an updated
counter/accumulator (`dropNext` records whether the following line was
consumed), or return an alignment to the caller (the `No ` branch with a
previously started block). -/
inductive Step where
  | cont (counter : Nat) (a : Acc) (dropNext : Bool)
  | yield (al : Option PyAlignment) (counter : Nat)

/-- The counter after a step. -/
def stepCounter : Step → Nat
  | .cont c _ _ => c
  | .yield _ c => c

/-- The `No ` branch: increment the counter, the line must split into
exactly two fields whose second is the new counter value, fail when the
counter exceeds the declared total, and return the accumulated alignment
when a block was already in progress. -/
def noBranch (env : Env) (counter : Nat) (a : Acc) (l : String) : Except Err Step :=
  match splitExact2 l with
  | none => .error .unpackFail
  | some (_, v) =>
    match pyInt v with
    | none => .error .intFail
    | some n =>
      if n ≠ ((counter + 1 : Nat) : Int) then .error .assertFail
      else if counter + 1 > env.number then
        .error (.countMismatch env.number (counter + 1))
      else if counter > 0 then
        match create_alignment env.queryName a with
        | .error e => .error e
        | .ok al => .ok (.yield al (counter + 1))
      else .ok (.cont (counter + 1) a false)

/-- One full line dispatch, including the `No ` branch. -/
def processLine (env : Env) (counter : Nat) (a : Acc) (line : String)
    (rest : List String) : Except Err Step :=
  match dispatchLine env a line rest with
  | .noLine => noBranch env counter a (pyRstrip line)
  | .simple (.error e) => .error e
  | .simple (.ok (a2, drop)) => .ok (.cont counter a2 drop)

/-- The result of one call to `_read_next_alignment`: the returned alignment
(`none` models Python `None`), the counter, the unconsumed stream, and
whether the stream was released (`self._close()` ran because the expected
count was reached at end of stream). -/
structure CallOut where
  alignment : Option PyAlignment
  counter : Nat
  rest : List String
  closed : Bool
deriving DecidableEq

/-- The code after the loop of `_read_next_alignment` (stream exhausted):
finalize the in-progress alignment, close when the expected count is
reached, and raise the count-mismatch error when nothing was produced even
though alignments were declared. -/
def endPath (env : Env) (counter : Nat) (a : Acc) : Except Err CallOut :=
  match create_alignment env.queryName a with
  | .error e => .error e
  | .ok al =>
    let closed := env.number == counter
    if al.isNone && decide (0 < env.number) then
      .error (.countMismatch env.number counter)
    else .ok ⟨al, counter, [], closed⟩

/-- The `for line in stream` loop of `_read_next_alignment`.  The `Nat`
argument is explicit fuel making the recursion structural; one line is
consumed per iteration, so any fuel of at least the stream length gives the
loop's true behaviour (see `alignLoop_fuel_irrel`). -/
def alignLoop (env : Env) (counter : Nat) (a : Acc) :
    Nat → List String → Except Err CallOut
  | fuel, ls =>
    match ls with
    | [] => endPath env counter a
    | l :: ls2 =>
      match fuel with
      | 0 => .error .driverFuel
      | fuel2 + 1 =>
        match processLine env counter a l ls2 with
        | .error e => .error e
        | .ok (.yield al c) => .ok ⟨al, c, ls2, false⟩
        | .ok (.cont c a2 drop) =>
          alignLoop env c a2 fuel2 (if drop then ls2.tail else ls2)

/-- One call to `_read_next_alignment` on the remaining stream. -/
def readNextAlignment (env : Env) (counter : Nat) (lines : List String) :
    Except Err CallOut :=
  alignLoop env counter emptyAcc lines.length lines

/-- Modelled from the spec: the generic alignment-iterator driver (the
`interfaces.AlignmentIterator` base class is an external collaborator, not
part of this repository's sources).  It calls the alignment block parser
repeatedly; a `None` result or a released stream ends the iteration, a
`StopIteration` escaping the parser ends it silently, and any other
exception propagates.  The `Nat` fuel makes the recursion structural; the
driver is always invoked with more fuel than it can consume. -/
def iterate (env : Env) (counter : Nat) :
    Nat → List String → Except Err (List PyAlignment)
  | 0, _ => .error .driverFuel
  | fuel + 1, lines =>
    match alignLoop env counter emptyAcc lines.length lines with
    | .error .stopIteration => .ok []
    | .error e => .error e
    | .ok out =>
      match out.alignment with
      | none => .ok []
      | some al =>
        if out.closed then .ok [al]
        else
          match iterate env out.counter fuel out.rest with
          | .error e => .error e
          | .ok recs => .ok (al :: recs)

/-- Parsing a whole file: the header once, then the driver. -/
def parseHHR (lines : List String) : Except Err (List PyAlignment) :=
  match readHeader lines with
  | .error e => .error e
  | .ok (env, rest) => iterate env 0 (rest.length + 1) rest

/-! ## Concrete input files used by witnesses and counterexamples -/

/-- A complete well-formed file whose `Identities` value has no `%` suffix. -/
def c2file : List String := [
  "Query q",
  "Match_columns 6",
  "",
  "No Hit Prob E-value P-value Score SS Cols Query HMM Template HMM",
  " 1 t1 99",
  "",
  "No 1",
  ">t1 first target",
  "Probability=99.5 Identities=30 Similarity=0.5",
  "Q q 1 ABC 3 (6)",
  "Q Consensus 1 abc 3 (6)",
  "T t1 1 AB- 2 (9)",
  "T ss_dssp CCC",
  "Confidence  345",
  "Done!"
]

/-- Check that `c2file` parses without error into exactly one alignment whose
`Identities` annotation is the float 30. -/
def c2check : Bool :=
  match parseHHR c2file with
  | .ok [al] => dictGet al.annotations "Identities" == some 30
  | _ => false

/-- The same file with an `Identities` value that does not parse as a float. -/
def c2badfile : List String := [
  "Query q",
  "Match_columns 6",
  "",
  "No Hit Prob E-value P-value Score SS Cols Query HMM Template HMM",
  " 1 t1 99",
  "",
  "No 1",
  ">t1 first target",
  "Probability=99.5 Identities=abc",
  "Q q 1 ABC 3 (6)",
  "T t1 1 ABC 3 (9)",
  "Done!"
]

/-- A complete well-formed file whose single block contains two `T ` lines
carrying different target names and declared lengths. -/
def c7file : List String := [
  "Query q",
  "Match_columns 6",
  "",
  "No Hit Prob E-value P-value Score SS Cols Query HMM Template HMM",
  " 1 AAA 99",
  "",
  "No 1",
  ">AAA wrapped target",
  "Probability=1.5",
  "Q q 1 ABC 3 (6)",
  "T AAA 1 ABC 3 (20)",
  "Q q 4 DEF 6 (6)",
  "T BBB 4 DEF 6 (30)"
]

/-- Check that the record finalized from `c7file` takes its target name and
declared length from the last `T ` line and its start offset from the first. -/
def c7check : Bool :=
  match parseHHR c7file with
  | .ok [al] =>
    al.target.id == "BBB" && al.target.length == 30 &&
    al.target.start == 0 && al.target.content == "ABCDEF"
  | _ => false

/-- A well-formed two-block file used by the C1 and C9 witnesses. -/
def c1file : List String := [
  "Query q",
  "Match_columns 4",
  "",
  "No Hit Prob E-value P-value Score SS Cols Query HMM Template HMM",
  " 1 t1 99",
  " 2 t2 98",
  "",
  "No 1",
  ">t1 target one",
  "Probability=1.5",
  "Q q 1 AB 2 (4)",
  "T t1 1 AB 2 (4)",
  "No 2",
  ">t2 target two",
  "Probability=2.5",
  "Q q 3 CD 4 (4)",
  "T t2 3 CD 4 (4)",
  "Done!"
]

/-- A single-block file for the determinism witness. -/
def c9file : List String := [
  "Query q",
  "Match_columns 2",
  "",
  "No Hit Prob E-value P-value Score SS Cols Query HMM Template HMM",
  " 1 t1 99",
  "",
  "No 1",
  ">t1 target",
  "Probability=3.5",
  "Q q 1 AB 2 (2)",
  "T t1 1 AB 2 (2)"
]

/-- First run of the parser over `c9file`. -/
def c9run1 : Except Err (List PyAlignment) := parseHHR c9file

/-- Second, independent run of the parser over `c9file`. -/
def c9run2 : Except Err (List PyAlignment) := parseHHR c9file

/-- The persistent state produced by the header parser on `c1file`. -/
def c1env : Env :=
  { queryName := some "q", metadata := [("Match_columns", .mInt 4)], number := 2 }

/-- The stream remaining after the header of `c1file`. -/
def c1rest : List String := [
  "No 1",
  ">t1 target one",
  "Probability=1.5",
  "Q q 1 AB 2 (4)",
  "T t1 1 AB 2 (4)",
  "No 2",
  ">t2 target two",
  "Probability=2.5",
  "Q q 3 CD 4 (4)",
  "T t2 3 CD 4 (4)",
  "Done!"
]

/-! ## Well-formedness of the post-header stream

The notions used to state claim C1's positive half: a counter-independent
body step, runs of body steps, accumulators that finalize successfully, and
the shape of a well-formed sequence of alignment blocks. -/

/-- A counter-independent loop step: the dispatched line neither is a `No `
marker nor produces an error.  Returns the updated accumulator and whether
the following line was consumed. -/
def stepBody (env : Env) (a : Acc) (l : String) (ls : List String) :
    Option (Acc × Bool) :=
  match dispatchLine env a l ls with
  | .simple (.ok (a2, drop)) => some (a2, drop)
  | _ => none

/-- Whether an `Except` finalization result is `ok (some _)`. -/
def isOkSome : Except Err (Option PyAlignment) → Bool
  | .ok (some _) => true
  | _ => false

/-- An accumulator that finalizes into an actual alignment record. -/
def GoodAcc (env : Env) (a : Acc) : Bool :=
  isOkSome (create_alignment env.queryName a)

/-- `BodyRun env a ls a2 rest`: from accumulator `a` and stream `ls`, a
sequence of counter-independent body steps reaches accumulator `a2` with
stream `rest` remaining. -/
inductive BodyRun (env : Env) : Acc → List String → Acc → List String → Prop
  | nil (a : Acc) (ls : List String) : BodyRun env a ls a ls
  | step {a a2 a3 : Acc} {l : String} {ls rest : List String} {drop : Bool} :
      stepBody env a l ls = some (a2, drop) →
      BodyRun env a2 (if drop then ls.tail else ls) a3 rest →
      BodyRun env a (l :: ls) a3 rest

/-- `Chain env c ls`: the stream `ls` consists of the well-formed alignment
blocks numbered `c + 1` through `env.number`, each introduced by a `No `
marker line carrying the right number and followed by body lines whose
accumulated state finalizes into an alignment record (a trailing `Done!`
line counts as a body step).  This is the shape of a well-formed hhr stream
after the hit-summary table. -/
inductive Chain (env : Env) : Nat → List String → Prop
  | nil : Chain env env.number []
  | cons {c : Nat} {marker k v : String} {after rest : List String} {a : Acc} :
      c < env.number →
      pyRstrip marker ≠ "" →
      startsW (pyRstrip marker) ">" = false →
      pyRstrip marker ≠ "Done!" →
      startsW (pyRstrip marker) " " = false →
      startsW (pyRstrip marker) "No " = true →
      splitExact2 (pyRstrip marker) = some (k, v) →
      pyInt v = some ((c + 1 : Nat) : Int) →
      BodyRun env emptyAcc after a rest →
      GoodAcc env a = true →
      Chain env (c + 1) rest →
      Chain env c (marker :: after)

/-- The accumulator reached after the body of the first block of `c1file`. -/
def c1acc1 : Acc := { emptyAcc with
  hmmName := some "t1", hmmDescription := some "target one",
  alignmentAnnotations := some [("Probability", mkRat 3 2)],
  queryStart := some 0, querySeq := "AB", queryLength := some 4,
  targetName := some "t1", targetLength := some 4, targetStart := some 0,
  targetSeq := "AB" }

/-- The accumulator reached after the body of the second block of `c1file`. -/
def c1acc2 : Acc := { emptyAcc with
  hmmName := some "t2", hmmDescription := some "target two",
  alignmentAnnotations := some [("Probability", mkRat 5 2)],
  queryStart := some 2, querySeq := "CD", queryLength := some 4,
  targetName := some "t2", targetLength := some 4, targetStart := some 2,
  targetSeq := "CD" }

/-- The stream remaining at the second block marker of `c1file`. -/
def c1rest1 : List String :=
  ["No 2", ">t2 target two", "Probability=2.5", "Q q 3 CD 4 (4)",
   "T t2 3 CD 4 (4)", "Done!"]

/-- An accumulator with mismatching sequence lengths (for the C6 witness). -/
def c6accBad : Acc := { emptyAcc with querySeq := "A" }

/-- A fully populated accumulator with equal nonempty sequences (C6 witness). -/
def c6accGood : Acc :=
  { emptyAcc with
    querySeq := "AB", targetSeq := "AB",
    queryStart := some 0, targetStart := some 0,
    queryLength := some 2, targetName := some "t", targetLength := some 2,
    hmmName := some "h", hmmDescription := some "d",
    alignmentAnnotations := some [] }

/-! # Theorems -/

/-! ## Auxiliary lemmas -/

theorem dictSet_mem {α : Type} {d : List (String × α)} {k x : String} {v w : α}
    (h : (x, v) ∈ dictSet d k w) : x = k ∨ (x, v) ∈ d := by
  unfold dictSet at h
  split at h
  · obtain ⟨p, hp, he⟩ := List.mem_map.mp h
    by_cases hpk : p.1 == k
    · rw [if_pos hpk] at he
      exact Or.inl (by cases he; rfl)
    · rw [if_neg hpk] at he
      exact Or.inr (he ▸ hp)
  · rcases List.mem_append.mp h with h1 | h1
    · exact Or.inr h1
    · simp only [List.mem_singleton, Prod.mk.injEq] at h1
      exact Or.inl h1.1

theorem annotWord_preserves {anns anns2 : List (String × ℚ)} {w : String}
    (h : parseAnnotWord anns w = .ok anns2)
    (hq : ∀ q, ("Aligned_cols", q) ∉ anns) :
    ∀ q, ("Aligned_cols", q) ∉ anns2 := by
  unfold parseAnnotWord at h
  split at h
  · rename_i k v
    split at h
    · cases h; exact hq
    · rename_i hk
      split at h
      · cases h
        intro q hmem
        rcases dictSet_mem hmem with h1 | h1
        · exact hk h1.symm
        · exact hq q h1
      · cases h
  · cases h

theorem annotFold_preserves :
    ∀ (ws : List String) (anns res : List (String × ℚ)),
      List.foldlM parseAnnotWord anns ws = .ok res →
      (∀ q, ("Aligned_cols", q) ∉ anns) → ∀ q, ("Aligned_cols", q) ∉ res := by
  intro ws
  induction ws with
  | nil =>
    intro anns res h hq
    simp only [List.foldlM_nil] at h
    cases h; exact hq
  | cons w ws ih =>
    intro anns res h hq
    rw [List.foldlM_cons] at h
    cases hw : parseAnnotWord anns w with
    | error e => rw [hw] at h; simp only [bind, Except.bind] at h; cases h
    | ok anns1 =>
      rw [hw] at h
      simp only [bind, Except.bind] at h
      exact ih anns1 res h (annotWord_preserves hw hq)

theorem create_alignment_empty (qn : Option String) :
    create_alignment qn emptyAcc = .ok none := rfl

theorem alignLoop_nil (env : Env) (counter : Nat) (a : Acc) (f : Nat) :
    alignLoop env counter a f [] = endPath env counter a := by
  rw [alignLoop]

theorem alignLoop_cons (env : Env) (counter : Nat) (a : Acc) (f : Nat)
    (l : String) (ls : List String) :
    alignLoop env counter a (f + 1) (l :: ls) =
      match processLine env counter a l ls with
      | .error e => .error e
      | .ok (.yield al c) => .ok ⟨al, c, ls, false⟩
      | .ok (.cont c a2 drop) =>
        alignLoop env c a2 f (if drop then ls.tail else ls) := rfl

theorem stepBody_processLine {env : Env} {a a2 : Acc} {l : String}
    {ls : List String} {drop : Bool}
    (h : stepBody env a l ls = some (a2, drop)) (counter : Nat) :
    processLine env counter a l ls = .ok (.cont counter a2 drop) := by
  unfold stepBody at h
  cases hd : dispatchLine env a l ls with
  | noLine => rw [hd] at h; cases h
  | simple res =>
    rw [hd] at h
    cases res with
    | error e => cases h
    | ok p =>
      obtain ⟨a3, drop3⟩ := p
      cases h
      simp [processLine, hd]

theorem bodyRun_length {env : Env} {a a2 : Acc} {ls rest : List String}
    (h : BodyRun env a ls a2 rest) : rest.length ≤ ls.length := by
  induction h with
  | nil a ls => exact le_refl _
  | step hstep hrun ih =>
    rename_i a a2 a3 l ls rest drop
    have : (if drop then ls.tail else ls).length ≤ ls.length := by
      cases drop <;> simp [List.length_tail]
    simp only [List.length_cons]
    omega

theorem alignLoop_fuel_irrel (env : Env) :
    ∀ f ls, ls.length ≤ f → ∀ counter a,
      alignLoop env counter a f ls = alignLoop env counter a ls.length ls := by
  intro f
  induction f using Nat.strong_induction_on with
  | _ f ih =>
    intro ls hle counter a
    cases ls with
    | nil => rw [alignLoop_nil, alignLoop_nil]
    | cons l ls2 =>
      cases f with
      | zero => simp at hle
      | succ f2 =>
        have hle2 : ls2.length ≤ f2 := by
          simp only [List.length_cons] at hle; omega
        rw [show (l :: ls2).length = ls2.length + 1 from rfl,
            alignLoop_cons, alignLoop_cons]
        cases hp : processLine env counter a l ls2 with
        | error e => rfl
        | ok st =>
          cases st with
          | yield al c => rfl
          | cont c a2 drop =>
            have hlen : (if drop then ls2.tail else ls2).length ≤ ls2.length := by
              cases drop <;> simp [List.length_tail]
            show alignLoop env c a2 f2 (if drop = true then ls2.tail else ls2)
              = alignLoop env c a2 ls2.length (if drop = true then ls2.tail else ls2)
            rw [ih f2 (Nat.lt_succ_self f2) _ (le_trans hlen hle2),
                ih ls2.length (Nat.lt_succ_of_le hle2) _ hlen]

theorem bodyRun_alignLoop {env : Env} {a a2 : Acc} {ls rest : List String}
    (h : BodyRun env a ls a2 rest) :
    ∀ counter, alignLoop env counter a ls.length ls
      = alignLoop env counter a2 rest.length rest := by
  induction h with
  | nil a ls => intro counter; rfl
  | step hstep hrun ih =>
    rename_i a a2 a3 l ls rest drop
    intro counter
    rw [show (l :: ls).length = ls.length + 1 from rfl, alignLoop_cons,
        stepBody_processLine hstep counter]
    show alignLoop env counter a2 ls.length (if drop then ls.tail else ls)
      = alignLoop env counter a3 rest.length rest
    have hlen : (if drop then ls.tail else ls).length ≤ ls.length := by
      cases drop <;> simp [List.length_tail]
    rw [alignLoop_fuel_irrel env ls.length _ hlen]
    exact ih counter

theorem goodAcc_some {env : Env} {a : Acc} (h : GoodAcc env a = true) :
    ∃ al, create_alignment env.queryName a = .ok (some al) := by
  unfold GoodAcc isOkSome at h
  split at h
  · rename_i al heq
    exact ⟨al, heq⟩
  · cases h

theorem dispatch_no_marker (env : Env) (a : Acc) (marker : String)
    (rest : List String)
    (h1 : pyRstrip marker ≠ "") (h2 : startsW (pyRstrip marker) ">" = false)
    (h3 : pyRstrip marker ≠ "Done!") (h4 : startsW (pyRstrip marker) " " = false)
    (h5 : startsW (pyRstrip marker) "No " = true) :
    dispatchLine env a marker rest = .noLine := by
  simp only [dispatchLine]
  rw [if_neg h1, if_neg (by simp [h2]), if_neg h3, if_neg (by simp [h4]),
      if_pos (by simp [h5])]

theorem processLine_marker (env : Env) (counter : Nat) (a : Acc)
    (marker : String) (rest : List String)
    (h1 : pyRstrip marker ≠ "") (h2 : startsW (pyRstrip marker) ">" = false)
    (h3 : pyRstrip marker ≠ "Done!") (h4 : startsW (pyRstrip marker) " " = false)
    (h5 : startsW (pyRstrip marker) "No " = true) :
    processLine env counter a marker rest
      = noBranch env counter a (pyRstrip marker) := by
  simp only [processLine, dispatch_no_marker env a marker rest h1 h2 h3 h4 h5]

theorem noBranch_chain (env : Env) (c : Nat) (a : Acc) (l : String)
    (k v : String)
    (hk : splitExact2 l = some (k, v)) (hv : pyInt v = some ((c + 1 : Nat) : Int))
    (hlt : c + 1 ≤ env.number) :
    noBranch env c a l =
      (if c > 0 then
        match create_alignment env.queryName a with
        | .error e => .error e
        | .ok al => .ok (.yield al (c + 1))
      else .ok (.cont (c + 1) a false)) := by
  simp only [noBranch, hk, hv]
  rw [if_neg (by simp), if_neg (by omega)]

theorem chain_length (env : Env) : ∀ {c : Nat} {ls : List String},
    Chain env c ls → env.number - c ≤ ls.length := by
  intro c ls h
  induction h with
  | nil => omega
  | cons hlt h1 h2 h3 h4 h5 hk hv hbody hgood hchain ih =>
    rename_i c marker k v after rest a
    have := bodyRun_length hbody
    simp only [List.length_cons]
    omega

theorem chain_cases {env : Env} {c : Nat} {ls : List String} (h : Chain env c ls) :
    (c = env.number ∧ ls = [])
    ∨ ∃ marker k v after rest a, ls = marker :: after
        ∧ c < env.number
        ∧ pyRstrip marker ≠ ""
        ∧ startsW (pyRstrip marker) ">" = false
        ∧ pyRstrip marker ≠ "Done!"
        ∧ startsW (pyRstrip marker) " " = false
        ∧ startsW (pyRstrip marker) "No " = true
        ∧ splitExact2 (pyRstrip marker) = some (k, v)
        ∧ pyInt v = some ((c + 1 : Nat) : Int)
        ∧ BodyRun env emptyAcc after a rest
        ∧ GoodAcc env a = true
        ∧ Chain env (c + 1) rest := by
  cases h with
  | nil => exact Or.inl ⟨rfl, rfl⟩
  | cons hlt h1 h2 h3 h4 h5 hk hv hbody hgood hchain =>
    exact Or.inr ⟨_, _, _, _, _, _, rfl, hlt, h1, h2, h3, h4, h5, hk, hv,
      hbody, hgood, hchain⟩

theorem chain_iterate (env : Env) :
    ∀ {c : Nat} {rest : List String}, Chain env c rest →
      ∀ ls a fuel, BodyRun env emptyAcc ls a rest → GoodAcc env a = true →
        1 ≤ c → c ≤ env.number → env.number - c + 1 ≤ fuel →
        ∃ records, iterate env c fuel ls = .ok records
          ∧ records.length = env.number - c + 1 := by
  intro c rest hchain
  induction hchain with
  | nil =>
    intro ls a fuel hbody hgood hc1 hcn hfuel
    obtain ⟨fuel2, rfl⟩ : ∃ f2, fuel = f2 + 1 := ⟨fuel - 1, by omega⟩
    obtain ⟨al, hal⟩ := goodAcc_some hgood
    have hloop : alignLoop env env.number emptyAcc ls.length ls
        = .ok ⟨some al, env.number, [], true⟩ := by
      rw [bodyRun_alignLoop hbody, alignLoop_nil]
      simp [endPath, hal]
    refine ⟨[al], ?_, by simp [Nat.sub_self]⟩
    simp [iterate, hloop]
  | cons hlt h1 h2 h3 h4 h5 hk hv hbody2 hgood2 hchain2 ih =>
    rename_i c marker k v after rest2 a2
    intro ls a fuel hbody hgood hc1 hcn hfuel
    obtain ⟨fuel2, rfl⟩ : ∃ f2, fuel = f2 + 1 := ⟨fuel - 1, by omega⟩
    obtain ⟨al, hal⟩ := goodAcc_some hgood
    have hloop : alignLoop env c emptyAcc ls.length ls
        = .ok ⟨some al, c + 1, after, false⟩ := by
      rw [bodyRun_alignLoop hbody,
          show (marker :: after).length = after.length + 1 from rfl,
          alignLoop_cons,
          processLine_marker env c a marker after h1 h2 h3 h4 h5,
          noBranch_chain env c a _ k v hk hv (by omega),
          if_pos (by omega : c > 0), hal]
    obtain ⟨recs, hrec, hlen⟩ :=
      ih after a2 fuel2 hbody2 hgood2 (by omega) (by omega) (by omega)
    refine ⟨al :: recs, ?_, ?_⟩
    · simp only [iterate, hloop]
      simp [hrec]
    · simp only [List.length_cons]
      omega

/-! ## Claims -/

/-- Claim C2 (amended): an `Identities` value missing its `%` suffix does not
by itself raise an error: trailing `%` signs are stripped if present and the
remaining string is converted to float; only when that conversion fails does
the parser raise the (float conversion) error, in which case the iterator
yields no records — witnessed by the concrete file `c2badfile` whose value is
unparsable. -/
theorem hhr_c2_identities_no_percent :
    (∀ anns w v q, splitOnEqS w = ["Identities", v] →
      pyFloat (rstripPercent v) = some q →
      parseAnnotWord anns w = .ok (dictSet anns "Identities" q))
    ∧ (∀ anns w v, splitOnEqS w = ["Identities", v] →
      pyFloat (rstripPercent v) = none →
      parseAnnotWord anns w = .error .floatFail)
    ∧ parseHHR c2badfile = .error .floatFail := by
  refine ⟨?_, ?_, by decide⟩
  · intro anns w v q hs hf
    simp only [parseAnnotWord, hs]
    simp [hf]
  · intro anns w v hs hf
    simp only [parseAnnotWord, hs]
    simp [hf]

/-- Claim C2, counterexample to the original claim: `c2file` contains
`Identities=30` (no `%` suffix), yet parsing raises no error and yields one
record whose `Identities` annotation is the float 30 — not zero records. -/
theorem hhr_c2_counterexample : c2check = true := by decide

/-- Claim C2, witness for the amended theorem at concrete inputs. -/
theorem hhr_c2_witness :
    parseAnnotWord [] "Identities=30" = .ok (dictSet [] "Identities" 30)
    ∧ parseAnnotWord [] "Identities=abc" = .error .floatFail :=
  ⟨hhr_c2_identities_no_percent.1 [] "Identities=30" "30" 30 (by decide) (by decide),
   hhr_c2_identities_no_percent.2.1 [] "Identities=abc" "abc" (by decide) (by decide)⟩

/-- Claim C3: in the key=value line following a `>` line, the stored
annotation mapping never contains the key `Aligned_cols` (first conjunct, for
every annotation line), and on the spec's example line the `Identities` value
is stored with its `%` stripped as the float 30 while the other keys are
stored as floats (second conjunct). -/
theorem hhr_c3_annotations :
    (∀ s anns q, parseAnnotLine s = .ok anns → ("Aligned_cols", q) ∉ anns)
    ∧ parseAnnotLine "Aligned_cols=42 Identities=30% Probability=99.5"
        = .ok [("Identities", 30), ("Probability", mkRat 199 2)] := by
  constructor
  · intro s anns q h
    exact annotFold_preserves (pySplitWS s) [] anns h (fun q => by simp) q
  · decide

/-- Claim C3, witness: the general conjunct applied to the spec's example
line. -/
theorem hhr_c3_annotations_witness :
    ("Aligned_cols", (7 : ℚ)) ∉ [(("Identities" : String), (30 : ℚ)), ("Probability", mkRat 199 2)] :=
  hhr_c3_annotations.1 "Aligned_cols=42 Identities=30% Probability=99.5"
    [("Identities", 30), ("Probability", mkRat 199 2)] 7 (by decide)

/-- Claim C4 (amended): a header line that splits into a key and a value
whose key is outside the recognized set raises the Unknown-key error; (the
original claim fails for unknown single-token lines, which die in tuple
unpacking before the key is examined — see the counterexample). -/
theorem hhr_c4_unknown_key :
    ∀ line rest qn md k v, pyStrip line ≠ "" →
      splitNone1 (pyStrip line) = some (k, v) →
      k ∉ ["Query", "Match_columns", "No_of_seqs", "Neff", "Template_Neff",
           "Searched_HMMs", "Date", "Command"] →
      readMetaLines (line :: rest) qn md = .error (.unknownKey k) := by
  intro line rest qn md k v hne hsplit hmem
  simp only [List.mem_cons, List.not_mem_nil, or_false, not_or] at hmem
  obtain ⟨h1, h2, h3, h4, h5, h6, h7, h8⟩ := hmem
  simp only [readMetaLines, if_neg hne, hsplit]
  simp [h1, h2, h3, h4, h5, h6, h7, h8]

/-- Claim C4, counterexample to the original claim: the single-token header
line `Foobar` has an unrecognized first token, but the header parser raises
the tuple-unpacking error, not the Unknown-key error. -/
theorem hhr_c4_counterexample :
    readHeader ["Foobar"] = .error .unpackFail
    ∧ Err.unpackFail ≠ Err.unknownKey "Foobar" := by decide

/-- Claim C4, witness for the amended theorem at a concrete two-token
header line. -/
theorem hhr_c4_witness :
    readMetaLines ["Foo bar"] none [] = .error (.unknownKey "Foo") :=
  hhr_c4_unknown_key "Foo bar" [] none [] "Foo" "bar"
    (by decide) (by decide) (by decide)

/-- Claim C5: a `Done!` line followed by at least one further line makes the
block parser raise the corruption error, whatever that line is; a `Done!`
line that is the last line of the stream raises nothing — the call behaves
exactly as if the stream had simply ended. -/
theorem hhr_c5_done_terminator :
    ∀ env counter a f l rest,
      alignLoop env counter a (f + 1) ("Done!" :: l :: rest) = .error .doneExtra
      ∧ alignLoop env counter a (f + 1) ["Done!"] = endPath env counter a := by
  intro env counter a f l rest
  refine ⟨rfl, ?_⟩
  have h1 : alignLoop env counter a (f + 1) ["Done!"] = alignLoop env counter a f [] := rfl
  rw [h1, alignLoop_nil]

/-- Claim C6: at finalization, sequences of different lengths fail the
assertion; two empty sequences produce no alignment; and an alignment is
produced only when the accumulated sequences have equal nonzero length. -/
theorem hhr_c6_finalization :
    (∀ qn a, a.querySeq.length ≠ a.targetSeq.length →
        create_alignment qn a = .error .assertFail)
    ∧ (∀ qn a, a.targetSeq.length = 0 → a.querySeq.length = 0 →
        create_alignment qn a = .ok none)
    ∧ (∀ qn a al, create_alignment qn a = .ok (some al) →
        a.querySeq.length = a.targetSeq.length ∧ a.targetSeq.length ≠ 0) := by
  refine ⟨?_, ?_, ?_⟩
  · intro qn a h
    simp only [create_alignment]
    rw [if_pos h]
  · intro qn a ht hq
    simp only [create_alignment]
    rw [if_neg (by omega), if_pos ht]
  · intro qn a al h
    simp only [create_alignment] at h
    split at h
    · cases h
    · rename_i hlen
      split at h
      · cases h
      · rename_i hn
        exact ⟨by omega, hn⟩

/-- Claim C6, witness: the three conjuncts applied at concrete
accumulators. -/
theorem hhr_c6_finalization_witness :
    create_alignment none c6accBad = .error .assertFail
    ∧ create_alignment none emptyAcc = .ok none
    ∧ (c6accGood.querySeq.length = c6accGood.targetSeq.length
        ∧ c6accGood.targetSeq.length ≠ 0) :=
  ⟨hhr_c6_finalization.1 none c6accBad (by decide),
   hhr_c6_finalization.2.1 none emptyAcc (by decide) (by decide),
   hhr_c6_finalization.2.2 (some "q") c6accGood _ rfl⟩

/-- Claim C7 (amended): on every `T ` sequence line the parser assigns the
target name and the declared total length anew (so across a wrapped block
the last such line wins), records the target start offset only on the first
such line, and appends the sequence string; over two consecutive `T ` lines
the sequences concatenate while name and length come from the second line
and the start offset from the first. -/
theorem hhr_c7_target_fields :
    (∀ a l name st seqs en tot si ei tl,
      splitExact6 l = some ("T", name, st, seqs, en, tot) →
      pyInt st = some si → pyInt en = some ei →
      startsW tot "(" = true → endsW tot ")" = true →
      pyInt (innerParen tot) = some tl →
      tBranch a l = .ok { a with
        targetName := some name, targetLength := some tl,
        targetStart := some (a.targetStart.getD (si - 1)),
        targetSeq := a.targetSeq ++ seqs })
    ∧ (∀ a l1 l2 name1 st1 seqs1 en1 tot1 si1 ei1 tl1
         name2 st2 seqs2 en2 tot2 si2 ei2 tl2,
      splitExact6 l1 = some ("T", name1, st1, seqs1, en1, tot1) →
      pyInt st1 = some si1 → pyInt en1 = some ei1 →
      startsW tot1 "(" = true → endsW tot1 ")" = true →
      pyInt (innerParen tot1) = some tl1 →
      splitExact6 l2 = some ("T", name2, st2, seqs2, en2, tot2) →
      pyInt st2 = some si2 → pyInt en2 = some ei2 →
      startsW tot2 "(" = true → endsW tot2 ")" = true →
      pyInt (innerParen tot2) = some tl2 →
      a.targetStart = none →
      (tBranch a l1).bind (fun a1 => tBranch a1 l2) = .ok { a with
        targetName := some name2, targetLength := some tl2,
        targetStart := some (si1 - 1),
        targetSeq := a.targetSeq ++ seqs1 ++ seqs2 }) := by
  have partA : ∀ a l name st seqs en tot si ei tl,
      splitExact6 l = some ("T", name, st, seqs, en, tot) →
      pyInt st = some si → pyInt en = some ei →
      startsW tot "(" = true → endsW tot ")" = true →
      pyInt (innerParen tot) = some tl →
      tBranch a l = .ok { a with
        targetName := some name, targetLength := some tl,
        targetStart := some (a.targetStart.getD (si - 1)),
        targetSeq := a.targetSeq ++ seqs } := by
    intro a l name st seqs en tot si ei tl hsplit hsi hei hp hq htl
    simp only [tBranch, hsplit, hsi, hei, hp, hq, htl]
    simp
  refine ⟨partA, ?_⟩
  intro a l1 l2 name1 st1 seqs1 en1 tot1 si1 ei1 tl1
    name2 st2 seqs2 en2 tot2 si2 ei2 tl2
    hsp1 hsi1 hei1 hp1 hq1 htl1 hsp2 hsi2 hei2 hp2 hq2 htl2 hstart
  rw [partA a l1 name1 st1 seqs1 en1 tot1 si1 ei1 tl1 hsp1 hsi1 hei1 hp1 hq1 htl1]
  simp only [Except.bind]
  rw [partA _ l2 name2 st2 seqs2 en2 tot2 si2 ei2 tl2 hsp2 hsi2 hei2 hp2 hq2 htl2]
  simp [hstart]

/-- Claim C7, counterexample to the original claim: in `c7file` the second
`T ` line names `BBB` with declared length 30, and the finalized record's
target identifier and length come from that last line, not the first
(`AAA`, 20); only the start offset comes from the first line. -/
theorem hhr_c7_counterexample : c7check = true := by decide

/-- Claim C7, witness for the amended theorem at two concrete wrapped
`T ` lines. -/
theorem hhr_c7_witness :
    (tBranch emptyAcc "T AAA 1 ABC 3 (20)").bind
        (fun a1 => tBranch a1 "T BBB 4 DEF 6 (30)")
      = .ok { emptyAcc with
          targetName := some "BBB", targetLength := some 30,
          targetStart := some 0,
          targetSeq := "" ++ "ABC" ++ "DEF" } :=
  hhr_c7_target_fields.2 emptyAcc "T AAA 1 ABC 3 (20)" "T BBB 4 DEF 6 (30)"
    "AAA" "1" "ABC" "3" "(20)" 1 3 20
    "BBB" "4" "DEF" "6" "(30)" 4 6 30
    (by decide) (by decide) (by decide) (by decide) (by decide) (by decide)
    (by decide) (by decide) (by decide) (by decide) (by decide) (by decide)
    (by decide)

/-- Claim C8: on a `No ` marker line the running counter is incremented (any
non-error outcome carries counter + 1); the parser fails the assertion unless
the line's trailing integer equals the incremented counter; and when the
integer matches but the incremented counter exceeds the declared total the
parser raises the count-mismatch error naming the declared total and the
counter. -/
theorem hhr_c8_no_marker :
    ∀ env counter a l k v n, splitExact2 l = some (k, v) → pyInt v = some n →
      ((n ≠ ((counter + 1 : Nat) : Int) →
          noBranch env counter a l = .error .assertFail)
       ∧ (n = ((counter + 1 : Nat) : Int) → env.number < counter + 1 →
          noBranch env counter a l = .error (.countMismatch env.number (counter + 1)))
       ∧ (∀ st, noBranch env counter a l = .ok st → stepCounter st = counter + 1)) := by
  intro env counter a l k v n hs hn
  refine ⟨?_, ?_, ?_⟩
  · intro hne
    simp only [noBranch, hs, hn]
    rw [if_pos hne]
  · intro he hlt
    simp only [noBranch, hs, hn]
    rw [if_neg (by simp [he]), if_pos hlt]
  · intro st h
    simp only [noBranch, hs, hn] at h
    split at h
    · cases h
    · split at h
      · cases h
      · split at h
        · split at h
          · cases h
          · cases h; rfl
        · cases h; rfl

/-- Claim C8, witness: the three conjuncts at concrete marker lines. -/
theorem hhr_c8_no_marker_witness :
    (noBranch { number := 5 } 1 emptyAcc "No 7" = .error .assertFail)
    ∧ (noBranch { number := 1 } 1 emptyAcc "No 2" = .error (.countMismatch 1 2))
    ∧ stepCounter (Step.cont 1 emptyAcc false) = 0 + 1 :=
  ⟨(hhr_c8_no_marker { number := 5 } 1 emptyAcc "No 7" "No" "7" 7
      (by decide) (by decide)).1 (by decide),
   (hhr_c8_no_marker { number := 1 } 1 emptyAcc "No 2" "No" "2" 2
      (by decide) (by decide)).2.1 (by decide) (by decide),
   (hhr_c8_no_marker { number := 5 } 0 emptyAcc "No 1" "No" "1" 1
      (by decide) (by decide)).2.2 (Step.cont 1 emptyAcc false) rfl⟩

/-- Claim C9: parsing is deterministic — any two results of running the
parser over identical input text are equal, so two fresh iterators yield
structurally identical record sequences. -/
theorem hhr_c9_deterministic :
    ∀ lines r1 r2, parseHHR lines = r1 → parseHHR lines = r2 → r1 = r2 := by
  intro lines r1 r2 h1 h2
  rw [← h1, ← h2]

/-- Claim C9, witness: two independent runs over `c9file` coincide. -/
theorem hhr_c9_deterministic_witness : c9run1 = c9run2 :=
  hhr_c9_deterministic c9file c9run1 c9run2 rfl rfl

/-- Claim C10: with a hit-summary table declaring zero rows, a call on an
exhausted stream returns the terminal empty result (closed, no alignment)
and the driver ends without error; the count-mismatch error on an exhausted
stream with an empty accumulator is raised exactly when the declared total
is nonzero. -/
theorem hhr_c10_zero_rows :
    (∀ env f fd, env.number = 0 →
      alignLoop env 0 emptyAcc f [] = .ok ⟨none, 0, [], true⟩
      ∧ iterate env 0 (fd + 1) [] = .ok [])
    ∧ (∀ env counter f, 0 < env.number →
      alignLoop env counter emptyAcc f [] = .error (.countMismatch env.number counter)) := by
  constructor
  · intro env f fd h
    obtain ⟨qn, md, num⟩ := env
    have h2 : num = 0 := h
    subst h2
    exact ⟨by rw [alignLoop_nil]; exact rfl, rfl⟩
  · intro env counter f h
    rw [alignLoop_nil]
    obtain ⟨qn, md, num⟩ := env
    have h2 : 0 < num := h
    simp [endPath, create_alignment_empty, h2, Nat.not_eq_zero_of_lt h2]

/-- Claim C10, witness: both conjuncts at concrete states. -/
theorem hhr_c10_zero_rows_witness :
    (alignLoop { number := 0 } 0 emptyAcc 3 [] = .ok ⟨none, 0, [], true⟩
      ∧ iterate { number := 0 } 0 4 [] = .ok [])
    ∧ alignLoop { number := 2 } 7 emptyAcc 0 [] = .error (.countMismatch 2 7) :=
  ⟨hhr_c10_zero_rows.1 { number := 0 } 3 3 rfl,
   hhr_c10_zero_rows.2 { number := 2 } 7 0 (by decide)⟩

/-- Claim C1: for every input whose header parses and whose post-header
stream is a well-formed sequence of alignment blocks (`Chain`), the iterator
yields exactly as many alignment records as the hit-summary table declared;
and a call whose stream is already exhausted while the declared total is
nonzero raises the count-mismatch error naming expected and actual counts
instead of silently ending. -/
theorem hhr_c1_yield_count :
    (∀ lines env rest, readHeader lines = .ok (env, rest) → Chain env 0 rest →
      ∃ records, parseHHR lines = .ok records ∧ records.length = env.number)
    ∧ (∀ env counter f, 0 < env.number →
      alignLoop env counter emptyAcc f [] = .error (.countMismatch env.number counter)) := by
  constructor
  · intro lines env rest hheader hchain
    have hparse : parseHHR lines = iterate env 0 (rest.length + 1) rest := by
      simp [parseHHR, hheader]
    rw [hparse]
    have hrlen := chain_length env hchain
    rcases chain_cases hchain with ⟨henv, rfl⟩ |
      ⟨marker, k, v, after, rest1, a1, rfl, hlt, h1, h2, h3, h4, h5, hk, hv,
       hbody1, hgood1, hchain1⟩
    · refine ⟨[], ?_, by simp [← henv]⟩
      simp [iterate, alignLoop_nil, endPath, create_alignment_empty, ← henv]
    · obtain ⟨al1, hal1⟩ := goodAcc_some hgood1
      have hstep1 : alignLoop env 0 emptyAcc (marker :: after).length (marker :: after)
          = alignLoop env 1 a1 rest1.length rest1 := by
        rw [show (marker :: after).length = after.length + 1 from rfl, alignLoop_cons,
            processLine_marker env 0 emptyAcc marker after h1 h2 h3 h4 h5,
            noBranch_chain env 0 emptyAcc _ k v hk hv (by omega)]
        show alignLoop env 1 emptyAcc after.length after = _
        exact bodyRun_alignLoop hbody1 1
      rcases chain_cases hchain1 with ⟨henv1, rfl⟩ |
        ⟨marker2, k2, v2, after2, rest2, a2, rfl, hlt2, h21, h22, h23, h24, h25,
         hk2, hv2, hbody2, hgood2, hchain2⟩
      · have hloop : alignLoop env 0 emptyAcc (marker :: after).length (marker :: after)
            = .ok ⟨some al1, 1, [], true⟩ := by
          rw [hstep1, alignLoop_nil]
          simp [endPath, hal1, ← henv1]
        refine ⟨[al1], ?_, by simp [← henv1]⟩
        simp only [iterate]
        rw [hloop]
        simp
      · have hloop : alignLoop env 0 emptyAcc (marker :: after).length (marker :: after)
            = .ok ⟨some al1, 2, after2, false⟩ := by
          rw [hstep1, show (marker2 :: after2).length = after2.length + 1 from rfl,
              alignLoop_cons,
              processLine_marker env 1 a1 marker2 after2 h21 h22 h23 h24 h25,
              noBranch_chain env 1 a1 _ k2 v2 hk2 hv2 (by omega),
              if_pos (by omega : 1 > 0), hal1]
        obtain ⟨recs, hrec, hlen⟩ :=
          chain_iterate env hchain2 after2 a2 (marker :: after).length hbody2 hgood2
            (by omega) (by omega) (by simp at hrlen ⊢; omega)
        refine ⟨al1 :: recs, ?_, ?_⟩
        · have hrec2 : iterate env 2 (marker :: after).length after2 = Except.ok recs := hrec
          rw [iterate, hloop]
          show (match iterate env 2 (marker :: after).length after2 with
                | Except.error e => Except.error e
                | Except.ok recs2 => Except.ok (al1 :: recs2)) = Except.ok (al1 :: recs)
          rw [hrec2]
        · simp only [List.length_cons]
          omega
  · intro env counter f h
    rw [alignLoop_nil]
    obtain ⟨qn, md, num⟩ := env
    have h2 : 0 < num := h
    simp [endPath, create_alignment_empty, h2, Nat.not_eq_zero_of_lt h2]

/-- The body run of the first block of `c1file`. -/
theorem c1body1 : BodyRun c1env emptyAcc
    ([">t1 target one", "Probability=1.5", "Q q 1 AB 2 (4)",
      "T t1 1 AB 2 (4)"] ++ c1rest1) c1acc1 c1rest1 :=
  BodyRun.step rfl (BodyRun.step rfl (BodyRun.step rfl (BodyRun.nil _ _)))

/-- The body run of the second block of `c1file`. -/
theorem c1body2 : BodyRun c1env emptyAcc
    [">t2 target two", "Probability=2.5", "Q q 3 CD 4 (4)",
     "T t2 3 CD 4 (4)", "Done!"] c1acc2 [] :=
  BodyRun.step rfl (BodyRun.step rfl (BodyRun.step rfl (BodyRun.step rfl
    (BodyRun.nil _ _))))

/-- The post-header stream of `c1file` is a well-formed two-block chain. -/
theorem c1chain : Chain c1env 0 c1rest :=
  @Chain.cons c1env 0 "No 1" "No" "1"
    ([">t1 target one", "Probability=1.5", "Q q 1 AB 2 (4)",
      "T t1 1 AB 2 (4)"] ++ c1rest1)
    c1rest1 c1acc1
    (by decide) (by decide) (by decide) (by decide) (by decide) (by decide)
    (by decide) (by decide)
    c1body1 (by decide)
    (@Chain.cons c1env 1 "No 2" "No" "2"
      [">t2 target two", "Probability=2.5", "Q q 3 CD 4 (4)",
       "T t2 3 CD 4 (4)", "Done!"]
      [] c1acc2
      (by decide) (by decide) (by decide) (by decide) (by decide) (by decide)
      (by decide) (by decide)
      c1body2 (by decide)
      Chain.nil)

/-- Claim C1, witness: the two conjuncts applied to the concrete two-block
file `c1file` and to a concrete exhausted state. -/
theorem hhr_c1_yield_count_witness :
    (∃ records, parseHHR c1file = .ok records ∧ records.length = c1env.number)
    ∧ alignLoop c1env 1 emptyAcc 0 [] = .error (.countMismatch 2 1) :=
  ⟨hhr_c1_yield_count.1 c1file c1env c1rest (by decide) c1chain,
   hhr_c1_yield_count.2 c1env 1 0 (by decide)⟩

end HHR
